import Mathlib

/-!
Verification of the clinical-trial BM25 retrieval engine
(`src/indexer.py`, `src/chatbot.py`, `src/api.py`).

Python strings are modelled as `List Char` (sequences of Unicode code
points).  The third-party `rank_bm25.BM25Okapi` object used by
`TrialIndexer.build_index` and `RAGChatbot.retrieve_relevant_trials` is not
part of the repository; its behaviour is modelled from the specification
(definitions marked `Modelled from the spec:`), with the natural logarithm
abstracted as a function parameter `lg : ℚ → ℚ`.
-/

/-- Model of Python `str.isspace` / the separators used by argumentless
`str.split`, for the code points that occur in this development: the ASCII
whitespace characters (space, tab, newline, vertical tab, form feed,
carriage return), the ASCII separator controls 0x1C–0x1F, and the Latin-1
whitespace 0x85 and 0xA0. -/
def isSpaceChar (c : Char) : Bool :=
  c.toNat == 32 || c.toNat == 9 || c.toNat == 10 || c.toNat == 11 ||
  c.toNat == 12 || c.toNat == 13 || c.toNat == 28 || c.toNat == 29 ||
  c.toNat == 30 || c.toNat == 31 || c.toNat == 0x85 || c.toNat == 0xA0

/-- Model of Python `str.isalnum`, exact on code points up to U+00FF:
ASCII digits and letters, the Latin-1 alphanumerics ª ² ³ µ ¹ º ¼ ½ ¾, and
the Latin-1 letters U+00C0–U+00FF except the operators × (U+00D7) and
÷ (U+00F7).  Code points above U+00FF are outside the model's character
universe. -/
def isAlnumChar (c : Char) : Bool :=
  (48 ≤ c.toNat && c.toNat ≤ 57) ||
  (65 ≤ c.toNat && c.toNat ≤ 90) ||
  (97 ≤ c.toNat && c.toNat ≤ 122) ||
  c.toNat == 0xAA || c.toNat == 0xB2 || c.toNat == 0xB3 ||
  c.toNat == 0xB5 || c.toNat == 0xB9 || c.toNat == 0xBA ||
  c.toNat == 0xBC || c.toNat == 0xBD || c.toNat == 0xBE ||
  (0xC0 ≤ c.toNat && c.toNat ≤ 0xFF && c.toNat != 0xD7 && c.toNat != 0xF7)

/-- Model of Python `str.lower` on one code point, exact on code points up
to U+00FF: ASCII uppercase letters and the Latin-1 uppercase letters
U+00C0–U+00DE (except × U+00D7) are shifted down by 0x20; everything else
is fixed. -/
def lowerChar (c : Char) : Char :=
  if h : (65 ≤ c.toNat ∧ c.toNat ≤ 90) ∨
      (0xC0 ≤ c.toNat ∧ c.toNat ≤ 0xDE ∧ c.toNat ≠ 0xD7) then
    Char.ofNatAux (c.toNat + 0x20) (Or.inl (by omega))
  else c

/-- Model of Python `str.lower` on a string (code-point-wise on the
modelled universe). -/
def lowerStr (s : List Char) : List Char := s.map lowerChar

/-- Worker for `pySplit`: `acc` holds the current in-progress token,
reversed. -/
def splitAux : List Char → List Char → List (List Char)
  | [], acc => if acc.isEmpty then [] else [acc.reverse]
  | c :: cs, acc =>
    if isSpaceChar c then
      if acc.isEmpty then splitAux cs [] else acc.reverse :: splitAux cs []
    else splitAux cs (c :: acc)

/-- Model of Python argumentless `str.split`: split on runs of whitespace,
returning only the non-empty chunks. -/
def pySplit (s : List Char) : List (List Char) := splitAux s []

namespace TrialIndexer

/-- `TrialIndexer.tokenize` (src/indexer.py lines 121–137):
lower-case, split on whitespace, strip each token to the characters for
which Python `str.isalnum` holds, drop tokens that become empty. -/
def tokenize (text : List Char) : List (List Char) :=
  ((pySplit (lowerStr text)).map (fun t => t.filter isAlnumChar)).filter
    (fun t => !t.isEmpty)

end TrialIndexer

namespace RAGChatbot

/-- `RAGChatbot.tokenize` (src/chatbot.py lines 52–65): an independent
second copy of the same three lines of tokenization code. -/
def tokenize (text : List Char) : List (List Char) :=
  ((pySplit (lowerStr text)).map (fun t => t.filter isAlnumChar)).filter
    (fun t => !t.isEmpty)

end RAGChatbot

theorem lowerChar_toNat_of_upper {c : Char}
    (h : (65 ≤ c.toNat ∧ c.toNat ≤ 90) ∨
      (0xC0 ≤ c.toNat ∧ c.toNat ≤ 0xDE ∧ c.toNat ≠ 0xD7)) :
    (lowerChar c).toNat = c.toNat + 0x20 := by
  rw [lowerChar, dif_pos h]
  rfl

theorem lowerChar_idem (c : Char) : lowerChar (lowerChar c) = lowerChar c := by
  by_cases h : (65 ≤ c.toNat ∧ c.toNat ≤ 90) ∨
      (0xC0 ≤ c.toNat ∧ c.toNat ≤ 0xDE ∧ c.toNat ≠ 0xD7)
  · have hv := lowerChar_toNat_of_upper h
    have : ¬ ((65 ≤ (lowerChar c).toNat ∧ (lowerChar c).toNat ≤ 90) ∨
        (0xC0 ≤ (lowerChar c).toNat ∧ (lowerChar c).toNat ≤ 0xDE ∧
          (lowerChar c).toNat ≠ 0xD7)) := by
      rw [hv]; omega
    rw [lowerChar, dif_neg this]
  · have hc : lowerChar c = c := by rw [lowerChar, dif_neg h]
    rw [hc, hc]

/-- One clinical-trial record (the TrialRecord of the data model): a fixed
set of named fields, each an optional string; `none` models an absent key
(Python `trial.get(...)` returning `None`). -/
structure TrialRecord where
  NCTId : Option (List Char)
  BriefTitle : Option (List Char)
  OfficialTitle : Option (List Char)
  OverallStatus : Option (List Char)
  Phase : Option (List Char)
  StudyType : Option (List Char)
  Conditions : Option (List Char)
  Interventions : Option (List Char)
  EligibilityCriteria : Option (List Char)
  HealthyVolunteers : Option (List Char)
  Sex : Option (List Char)
  MinimumAge : Option (List Char)
  MaximumAge : Option (List Char)
  StandardAges : Option (List Char)
  PrimaryContactName : Option (List Char)
  PrimaryContactEmail : Option (List Char)
  PrincipalInvestigatorName : Option (List Char)
  PrincipalInvestigatorAffiliation : Option (List Char)
  USLocations : Option (List Char)
  Country : Option (List Char)
  StartDate : Option (List Char)
  CompletionDate : Option (List Char)
  PrimaryOutcomes : Option (List Char)
  SecondaryOutcomes : Option (List Char)

/-- Python truthiness of `trial.get(field)`: the key is present and the
value is a non-empty string. -/
def truthy (f : Option (List Char)) : Bool :=
  match f with
  | some s => !s.isEmpty
  | none => false

/-- One `parts.append(f"Label: {value}")` step guarded by
`if trial.get(field):`. -/
def fieldPart (label : String) (f : Option (List Char)) : List (List Char) :=
  if truthy f then [label.toList ++ f.getD []] else []

/-- The record with every field absent. -/
def blankRecord : TrialRecord :=
  ⟨none, none, none, none, none, none, none, none, none, none, none, none,
   none, none, none, none, none, none, none, none, none, none, none, none⟩

namespace TrialIndexer

/-- `TrialIndexer.create_trial_text` (src/indexer.py lines 38–119): emit
"Label: value" fragments for the fixed ordered field list, skipping fields
that are absent or empty (Python truthiness), newline-flattening the
eligibility criteria, and join the fragments with single spaces. -/
def create_trial_text (r : TrialRecord) : List Char :=
  List.intercalate [' ']
    (fieldPart "Trial ID: " r.NCTId ++
     fieldPart "Title: " r.BriefTitle ++
     fieldPart "Official Title: " r.OfficialTitle ++
     fieldPart "Status: " r.OverallStatus ++
     fieldPart "Phase: " r.Phase ++
     fieldPart "Study Type: " r.StudyType ++
     fieldPart "Conditions: " r.Conditions ++
     fieldPart "Interventions: " r.Interventions ++
     (if truthy r.EligibilityCriteria then
        ["Eligibility: ".toList ++
          (r.EligibilityCriteria.getD []).map
            (fun c => if c = '\n' then ' ' else c)]
      else []) ++
     fieldPart "Healthy Volunteers: " r.HealthyVolunteers ++
     fieldPart "Sex: " r.Sex ++
     fieldPart "Minimum Age: " r.MinimumAge ++
     fieldPart "Maximum Age: " r.MaximumAge ++
     fieldPart "Ages: " r.StandardAges ++
     fieldPart "Contact: " r.PrimaryContactName ++
     fieldPart "Email: " r.PrimaryContactEmail ++
     fieldPart "PI: " r.PrincipalInvestigatorName ++
     fieldPart "Affiliation: " r.PrincipalInvestigatorAffiliation ++
     fieldPart "Locations: " r.USLocations ++
     fieldPart "Country: " r.Country ++
     fieldPart "Start Date: " r.StartDate ++
     fieldPart "Completion Date: " r.CompletionDate ++
     fieldPart "Primary Outcomes: " r.PrimaryOutcomes ++
     fieldPart "Secondary Outcomes: " r.SecondaryOutcomes)

/-- The document corpus built by `TrialIndexer.build_index` step 2
(src/indexer.py lines 148–158): one text per record, in input order. -/
def build_corpus (trials : List TrialRecord) : List (List Char) :=
  trials.map create_trial_text

/-- The tokenized corpus built by `TrialIndexer.build_index` step 3
(src/indexer.py line 165): one tokenized document per corpus text. -/
def tokenized_corpus (trials : List TrialRecord) : List (List (List Char)) :=
  (build_corpus trials).map tokenize

end TrialIndexer

/-- Error domain of index building.  Modelled from the spec: the build
operation surfaces `EmptyCorpusError` on a zero-document corpus. -/
inductive BuildError where
  | EmptyCorpusError
deriving DecidableEq

/-- Modelled from the spec: the statistics held by the BM25 ranking index
constructed by the third-party `BM25Okapi(tokenized_corpus)` call in
`TrialIndexer.build_index` (the library is not part of src/): the tokenized
corpus (carrying per-document lengths and term frequencies), the average
document length, and the parameters k1 and b. -/
structure RankingIndex where
  corpus : List (List (List Char))
  k1 : ℚ
  b : ℚ
  avgdl : ℚ
deriving DecidableEq

/-- Document frequency of a term: the number of documents of the corpus
containing it at least once. -/
def termDf (corpus : List (List (List Char))) (t : List Char) : ℕ :=
  corpus.countP (fun d => t ∈ d)

/-- Modelled from the spec: construction of the ranking index by the
third-party `BM25Okapi` call (not part of src/); fails with
`EmptyCorpusError` on zero documents, otherwise records the corpus
statistics with the default parameters k1 = 1.5 and b = 0.75. -/
def buildRankingIndex (corpus : List (List (List Char))) :
    Except BuildError RankingIndex :=
  if corpus.isEmpty then .error .EmptyCorpusError
  else .ok
    { corpus := corpus
      k1 := 3/2
      b := 3/4
      avgdl := ((corpus.map (fun d => (d.length : ℚ))).sum) / corpus.length }

namespace TrialIndexer

/-- `TrialIndexer.build_index` (src/indexer.py lines 139–185): corpus
creation, tokenization, and the (spec-modelled) BM25 index construction. -/
def build_index (trials : List TrialRecord) : Except BuildError RankingIndex :=
  buildRankingIndex (tokenized_corpus trials)

end TrialIndexer

/-- Modelled from the spec: the per-term inverse document frequency
`ln((N - df + 0.5) / (df + 0.5) + 1)`, with the natural logarithm
abstracted as `lg`. -/
def idf (lg : ℚ → ℚ) (N df : ℕ) : ℚ :=
  lg (((N : ℚ) - (df : ℚ) + 1/2) / ((df : ℚ) + 1/2) + 1)

/-- Modelled from the spec: the BM25 contribution of one query term to one
document, `idf(t) * (tf * (k1+1)) / (tf + k1 * (1 - b + b * dl/avgdl))`. -/
def termContribution (lg : ℚ → ℚ) (idx : RankingIndex)
    (d : List (List Char)) (t : List Char) : ℚ :=
  idf lg idx.corpus.length (termDf idx.corpus t) *
    ((d.count t : ℚ) * (idx.k1 + 1)) /
    ((d.count t : ℚ) +
      idx.k1 * (1 - idx.b + idx.b * (d.length : ℚ) / idx.avgdl))

/-- Modelled from the spec: the BM25 score of one document for a tokenized
query, summing the per-term contributions over the query's term
occurrences (duplicates compound). -/
def scoreDoc (lg : ℚ → ℚ) (idx : RankingIndex) (d : List (List Char))
    (q : List (List Char)) : ℚ :=
  (q.map (termContribution lg idx d)).sum

/-- Modelled from the spec: `bm25.get_scores(tokenized_query)`
(src/chatbot.py line 84, delegating to the third-party library): the score
of every document of the corpus, in corpus order. -/
def get_scores (lg : ℚ → ℚ) (idx : RankingIndex)
    (q : List (List Char)) : List ℚ :=
  idx.corpus.map (fun d => scoreDoc lg idx d q)

/-- Python slice `l[:n]` for an arbitrary integer `n`: a non-negative `n`
takes the first `n` elements, a negative `n` drops the last `|n|`. -/
def pySlice (n : ℤ) (l : List α) : List α :=
  if 0 ≤ n then l.take n.toNat else l.take ((l.length : ℤ) + n).toNat

/-- The comparison used by
`sorted(range(len(scores)), key=lambda i: scores[i], reverse=True)`
(src/chatbot.py line 87): index `i` may precede index `j` when the score
of `i` is at least the score of `j`. -/
def scoreLE (scores : List ℚ) (i j : ℕ) : Bool :=
  decide (scores.getD j 0 ≤ scores.getD i 0)

/-- `top_n_indices` (src/chatbot.py line 87): the index list 0..N-1 stably
sorted by score descending (Python `sorted` is stable, and `reverse=True`
preserves the order of equal keys), then sliced to `n` entries. -/
def top_n_indices (scores : List ℚ) (n : ℤ) : List ℕ :=
  pySlice n ((List.range scores.length).mergeSort (scoreLE scores))

namespace RAGChatbot

/-- `RAGChatbot.retrieve_relevant_trials` (src/chatbot.py lines 67–102):
tokenize the query, score every document, select the top indices, and
return the (corpus position, score) pairs in rank order. -/
def retrieve_relevant_trials (lg : ℚ → ℚ) (idx : RankingIndex)
    (query : List Char) (n_results : ℤ) : List (ℕ × ℚ) :=
  let tokenized_query := tokenize query
  let scores := get_scores lg idx tokenized_query
  (top_n_indices scores n_results).map (fun i => (i, scores.getD i 0))

/-- `RAGChatbot.chat`, retrieval step (src/chatbot.py line 229): the call
`self.retrieve_relevant_trials(query)` passes no result count, so the
default `n_results = 10` (line 67) is always used. -/
def chat (lg : ℚ → ℚ) (idx : RankingIndex) (query : List Char) :
    List (ℕ × ℚ) :=
  retrieve_relevant_trials lg idx query 10

end RAGChatbot

/-- The validated request body of the `/chat` endpoint
(src/api.py lines 66–77): the query text and the `n_results` field. -/
structure ChatRequest where
  query : List Char
  n_results : ℤ

/-- The `/chat` endpoint handler (src/api.py lines 184–222), retrieval
part: it calls `chatbot.chat(request.query)` and never forwards
`request.n_results`. -/
def api_chat (lg : ℚ → ℚ) (idx : RankingIndex) (req : ChatRequest) :
    List (ℕ × ℚ) :=
  RAGChatbot.chat lg idx req.query

/-- Re-joining a token list with single spaces (the `tokenize_join` of the
spec's idempotence property). -/
def joinWithSpaces : List (List Char) → List Char
  | [] => []
  | [t] => t
  | t :: t2 :: ts => t ++ ' ' :: joinWithSpaces (t2 :: ts)

/-- The tokenizer written directly from the spec's words, with the
amendment that "alphanumeric" is Python's Unicode `str.isalnum`, not ASCII:
lower-case the input, split on whitespace runs, strip each token to its
alphanumeric characters, and keep the result exactly when it is
non-empty. -/
def tokenizeSpecAmended (s : List Char) : List (List Char) :=
  (pySplit (lowerStr s)).foldr
    (fun t acc =>
      if (t.filter isAlnumChar).isEmpty then acc else t.filter isAlnumChar :: acc)
    []

theorem isAlnum_not_space {c : Char} (h : isAlnumChar c = true) :
    isSpaceChar c = false := by
  simp only [isAlnumChar, Bool.or_eq_true, Bool.and_eq_true, decide_eq_true_eq,
    beq_iff_eq, bne_iff_ne, ne_eq] at h
  simp only [isSpaceChar, Bool.or_eq_false_iff, beq_eq_false_iff_ne, ne_eq]
  omega

theorem splitAux_chars_mem :
    ∀ (s acc : List Char) (t : List Char), t ∈ splitAux s acc →
      ∀ c ∈ t, c ∈ s ∨ c ∈ acc
  | [], acc, t, ht, c, hc => by
    unfold splitAux at ht
    by_cases he : acc.isEmpty <;> simp [he] at ht
    subst ht
    exact Or.inr (List.mem_reverse.mp hc)
  | c0 :: cs, acc, t, ht, c, hc => by
    unfold splitAux at ht
    by_cases hs : isSpaceChar c0
    · by_cases he : acc.isEmpty <;> simp [hs, he] at ht
      · rcases splitAux_chars_mem cs [] t ht c hc with h | h
        · exact Or.inl (List.mem_cons_of_mem _ h)
        · simp at h
      · rcases ht with ht | ht
        · subst ht
          exact Or.inr (List.mem_reverse.mp hc)
        · rcases splitAux_chars_mem cs [] t ht c hc with h | h
          · exact Or.inl (List.mem_cons_of_mem _ h)
          · simp at h
    · simp [hs] at ht
      rcases splitAux_chars_mem cs (c0 :: acc) t ht c hc with h | h
      · exact Or.inl (List.mem_cons_of_mem _ h)
      · rcases List.mem_cons.mp h with h | h
        · exact Or.inl (h ▸ List.mem_cons_self _ _)
        · exact Or.inr h

theorem pySplit_chars_mem {s : List Char} {t : List Char} (ht : t ∈ pySplit s) :
    ∀ c ∈ t, c ∈ s := by
  intro c hc
  rcases splitAux_chars_mem s [] t ht c hc with h | h
  · exact h
  · simp at h

theorem mem_tokenize_props {s : List Char} {t : List Char}
    (ht : t ∈ TrialIndexer.tokenize s) :
    t ≠ [] ∧ (∀ c ∈ t, isAlnumChar c = true) ∧ (∀ c ∈ t, lowerChar c = c) := by
  unfold TrialIndexer.tokenize at ht
  have hne := List.of_mem_filter ht
  have htm := List.mem_of_mem_filter ht
  rcases List.mem_map.mp htm with ⟨t0, ht0, rfl⟩
  refine ⟨?_, ?_, ?_⟩
  · intro h
    rw [h] at hne
    simp at hne
  · intro c hc
    exact List.of_mem_filter hc
  · intro c hc
    have hct0 : c ∈ t0 := List.mem_of_mem_filter hc
    have hcl : c ∈ lowerStr s := pySplit_chars_mem ht0 c hct0
    rcases List.mem_map.mp hcl with ⟨d, _, rfl⟩
    exact lowerChar_idem d

theorem splitAux_append_nonspace :
    ∀ (t : List Char), (∀ c ∈ t, isSpaceChar c = false) →
      ∀ (cs acc : List Char), splitAux (t ++ cs) acc = splitAux cs (t.reverse ++ acc)
  | [], _, cs, acc => by simp [splitAux]
  | c0 :: t', h, cs, acc => by
    have hc0 : isSpaceChar c0 = false := h c0 (List.mem_cons_self _ _)
    have ht' : ∀ c ∈ t', isSpaceChar c = false :=
      fun c hc => h c (List.mem_cons_of_mem _ hc)
    show splitAux (c0 :: (t' ++ cs)) acc = _
    conv_lhs => rw [splitAux]
    simp only [hc0, Bool.false_eq_true, if_false]
    rw [splitAux_append_nonspace t' ht' cs (c0 :: acc)]
    simp

theorem pySplit_joinWithSpaces :
    ∀ (ts : List (List Char)),
      (∀ t ∈ ts, t ≠ [] ∧ ∀ c ∈ t, isSpaceChar c = false) →
      pySplit (joinWithSpaces ts) = ts := by
  intro ts
  induction ts with
  | nil => intro _; rfl
  | cons t rest ih =>
    intro h
    have ht := h t (List.mem_cons_self _ _)
    have hrest : ∀ u ∈ rest, u ≠ [] ∧ ∀ c ∈ u, isSpaceChar c = false :=
      fun u hu => h u (List.mem_cons_of_mem _ hu)
    have hrevne : t.reverse.isEmpty = false := by
      rcases t with _ | ⟨c, t2⟩
      · exact absurd rfl ht.1
      · simp
    cases rest with
    | nil =>
      show pySplit (joinWithSpaces [t]) = [t]
      unfold joinWithSpaces pySplit
      rw [show t = t ++ [] from (List.append_nil t).symm,
        splitAux_append_nonspace t ht.2 [] []]
      unfold splitAux
      rw [List.append_nil, hrevne]
      simp
    | cons t2 rest2 =>
      show pySplit (t ++ ' ' :: joinWithSpaces (t2 :: rest2)) = t :: t2 :: rest2
      unfold pySplit
      rw [splitAux_append_nonspace t ht.2 _ []]
      show splitAux (' ' :: joinWithSpaces (t2 :: rest2)) (t.reverse ++ []) = _
      unfold splitAux
      rw [List.append_nil]
      simp only [show isSpaceChar ' ' = true from by decide, if_true, hrevne,
        Bool.false_eq_true, if_false, List.reverse_reverse]
      exact congrArg (t :: ·) (ih hrest)

theorem lowerStr_fix {t : List Char} (h : ∀ c ∈ t, lowerChar c = c) :
    lowerStr t = t := by
  unfold lowerStr
  rw [List.map_congr_left h]
  simp

theorem lowerStr_joinWithSpaces :
    ∀ (ts : List (List Char)), (∀ t ∈ ts, lowerStr t = t) →
      lowerStr (joinWithSpaces ts) = joinWithSpaces ts := by
  intro ts
  induction ts with
  | nil => intro _; rfl
  | cons t rest ih =>
    intro h
    have ht := h t (List.mem_cons_self _ _)
    have hrest : ∀ u ∈ rest, lowerStr u = u :=
      fun u hu => h u (List.mem_cons_of_mem _ hu)
    cases rest with
    | nil => exact ht
    | cons t2 rest2 =>
      show lowerStr (t ++ ' ' :: joinWithSpaces (t2 :: rest2)) = _
      unfold lowerStr at ht ih ⊢
      rw [List.map_append, List.map_cons, ht, ih hrest,
        show lowerChar ' ' = ' ' from by decide]
      rfl

theorem filter_map_eq_foldr (f : List Char → List Char) :
    ∀ (l : List (List Char)),
      (l.map f).filter (fun t => !t.isEmpty) =
        l.foldr (fun t acc => if (f t).isEmpty then acc else f t :: acc) []
  | [] => rfl
  | a :: l => by
    simp only [List.map_cons, List.filter_cons, List.foldr_cons,
      ← filter_map_eq_foldr f l]
    by_cases h : (f a).isEmpty <;> simp [h]

/-- C6: the corpus-side tokenizer `TrialIndexer.tokenize` and the
query-side tokenizer `RAGChatbot.tokenize` compute the same function: on
every input they return identical token sequences (in the source both are
the same three lines of code, duplicated). -/
theorem claim6_tokenizers_equal :
    ∀ s : List Char, RAGChatbot.tokenize s = TrialIndexer.tokenize s :=
  fun _ => rfl

/-- C5, counterexample: on the input "café" the tokenizer keeps the
non-ASCII letter é (Python `str.isalnum` is Unicode-aware), so it does not
remove every character that is not an ASCII letter or ASCII digit — the
claimed ASCII-stripping behaviour would give ["caf"]. -/
theorem claim5_counterexample :
    TrialIndexer.tokenize ['c', 'a', 'f', 'é'] = [['c', 'a', 'f', 'é']] ∧
    TrialIndexer.tokenize ['c', 'a', 'f', 'é'] ≠ [['c', 'a', 'f']] ∧
    isAlnumChar 'é' = true ∧
    ¬ (('a' ≤ 'é' ∧ 'é' ≤ 'z') ∨ ('A' ≤ 'é' ∧ 'é' ≤ 'Z') ∨
       ('0' ≤ 'é' ∧ 'é' ≤ '9')) := by
  refine ⟨by decide, by decide, by decide, by decide⟩

/-- C5, amended: for every input string, tokenize lower-cases it, splits
it on whitespace runs, removes from each token every character that is not
alphanumeric in the sense of Python `str.isalnum` (Unicode-aware, not
ASCII-only), and discards tokens that become empty, returning an
order-preserving sequence of non-empty lowercase alphanumeric tokens with
duplicates retained. -/
theorem claim5_tokenize_amended (s : List Char) :
    TrialIndexer.tokenize s = tokenizeSpecAmended s ∧
    ∀ t ∈ TrialIndexer.tokenize s,
      t ≠ [] ∧ (∀ c ∈ t, isAlnumChar c = true) ∧ ∀ c ∈ t, lowerChar c = c := by
  constructor
  · exact filter_map_eq_foldr _ (pySplit (lowerStr s))
  · exact fun t ht => mem_tokenize_props ht

/-- C8: tokenizer output is a fixed point of the tokenizer: re-joining the
tokens of `tokenize x` with single spaces and tokenizing again yields
exactly `tokenize x`. -/
theorem claim8_tokenize_idempotent (x : List Char) :
    TrialIndexer.tokenize (joinWithSpaces (TrialIndexer.tokenize x)) =
      TrialIndexer.tokenize x := by
  have hp := fun t ht => @mem_tokenize_props x t ht
  have h1 : (TrialIndexer.tokenize x).map (fun t => t.filter isAlnumChar) =
      TrialIndexer.tokenize x := by
    rw [List.map_congr_left
      (fun t ht => List.filter_eq_self.mpr ((hp t ht).2.1))]
    simp
  have h2 : (TrialIndexer.tokenize x).filter (fun t => !t.isEmpty) =
      TrialIndexer.tokenize x :=
    List.filter_eq_self.mpr (fun t ht => by simpa using (hp t ht).1)
  show ((pySplit (lowerStr (joinWithSpaces (TrialIndexer.tokenize x)))).map
      (fun t => t.filter isAlnumChar)).filter (fun t => !t.isEmpty) =
    TrialIndexer.tokenize x
  rw [lowerStr_joinWithSpaces _ (fun t ht => lowerStr_fix (hp t ht).2.2),
    pySplit_joinWithSpaces _ (fun t ht =>
      ⟨(hp t ht).1, fun c hc => isAlnum_not_space ((hp t ht).2.1 c hc)⟩),
    h1, h2]

theorem scoreLE_iff {scores : List ℚ} {i j : ℕ} :
    scoreLE scores i j = true ↔ scores.getD j 0 ≤ scores.getD i 0 := by
  simp [scoreLE]

theorem enumLE_scoreLE_iff {scores : List ℚ} {a b : ℕ × ℕ} :
    List.enumLE (scoreLE scores) a b = true ↔
      (scores.getD b.2 0 ≤ scores.getD a.2 0 ∧
        (scores.getD a.2 0 ≤ scores.getD b.2 0 → a.1 ≤ b.1)) := by
  have ha : scoreLE scores a.2 b.2 =
      decide (scores.getD b.2 0 ≤ scores.getD a.2 0) := rfl
  have hb : scoreLE scores b.2 a.2 =
      decide (scores.getD a.2 0 ≤ scores.getD b.2 0) := rfl
  unfold List.enumLE
  rw [ha, hb]
  by_cases h1 : scores.getD b.2 0 ≤ scores.getD a.2 0 <;>
    by_cases h2 : scores.getD a.2 0 ≤ scores.getD b.2 0
  · rw [decide_eq_true h1, decide_eq_true h2, if_pos rfl, if_pos rfl]
    simp only [decide_eq_true_eq]
    exact ⟨fun h => ⟨h1, fun _ => h⟩, fun h => h.2 h2⟩
  · rw [decide_eq_true h1, decide_eq_false h2, if_pos rfl,
      if_neg (by simp)]
    exact ⟨fun _ => ⟨h1, fun h => absurd h h2⟩, fun _ => rfl⟩
  · rw [decide_eq_false h1, if_neg (by simp)]
    exact ⟨fun h => absurd h (by simp), fun h => absurd h.1 h1⟩
  · rw [decide_eq_false h1, if_neg (by simp)]
    exact ⟨fun h => absurd h (by simp), fun h => absurd h.1 h1⟩

theorem enumLE_scoreLE_trans (scores : List ℚ) :
    ∀ a b c : ℕ × ℕ, List.enumLE (scoreLE scores) a b = true →
      List.enumLE (scoreLE scores) b c = true →
      List.enumLE (scoreLE scores) a c = true := by
  intro a b c hab hbc
  rw [enumLE_scoreLE_iff] at hab hbc ⊢
  obtain ⟨h1, h2⟩ := hab
  obtain ⟨h3, h4⟩ := hbc
  exact ⟨h3.trans h1,
    fun h => (h2 (h.trans h3)).trans (h4 (h1.trans h))⟩

theorem enumLE_scoreLE_total (scores : List ℚ) :
    ∀ a b : ℕ × ℕ, (List.enumLE (scoreLE scores) a b ||
      List.enumLE (scoreLE scores) b a) = true := by
  intro a b
  rw [Bool.or_eq_true, enumLE_scoreLE_iff, enumLE_scoreLE_iff]
  rcases lt_trichotomy (scores.getD a.2 0) (scores.getD b.2 0) with h | h | h
  · exact Or.inr ⟨h.le, fun h2 => absurd h (not_lt.mpr h2)⟩
  · rcases Nat.le_total a.1 b.1 with h' | h'
    · exact Or.inl ⟨h.ge, fun _ => h'⟩
    · exact Or.inr ⟨h.le, fun _ => h'⟩
  · exact Or.inl ⟨h.le, fun h2 => absurd h (not_lt.mpr h2)⟩

theorem mem_enum_range_diag {N : ℕ} {x : ℕ × ℕ}
    (h : x ∈ (List.range N).enum) : x.2 = x.1 := by
  obtain ⟨i, v⟩ := x
  rw [List.mk_mem_enum_iff_getElem?] at h
  by_cases hi : i < N
  · rw [List.getElem?_range hi] at h
    exact (Option.some_inj.mp h).symm
  · rw [List.getElem?_eq_none (by simpa using hi)] at h
    cases h

theorem mergeSort_range_pairwise (scores : List ℚ) :
    ((List.range scores.length).mergeSort (scoreLE scores)).Pairwise
      (fun i j => scores.getD j 0 < scores.getD i 0 ∨
        (scores.getD i 0 = scores.getD j 0 ∧ i < j)) := by
  have hterm : (List.range scores.length).mergeSort (scoreLE scores) =
      ((List.range scores.length).enum.mergeSort
        (List.enumLE (scoreLE scores))).map (fun x => x.2) :=
    List.mergeSort_enum.symm
  have hE : ((List.range scores.length).enum.mergeSort
      (List.enumLE (scoreLE scores))).Pairwise
      (fun a b => List.enumLE (scoreLE scores) a b = true) :=
    List.sorted_mergeSort (enumLE_scoreLE_trans scores)
      (enumLE_scoreLE_total scores) _
  have hnodupE : ((List.range scores.length).enum.mergeSort
      (List.enumLE (scoreLE scores))).Nodup :=
    (List.mergeSort_perm _ _).nodup_iff.mpr
      (List.nodup_enum_map_fst _).of_map
  rw [hterm, List.pairwise_map]
  refine List.Pairwise.imp_of_mem ?_ (hE.and hnodupE)
  intro a b ha hb hab
  obtain ⟨hab, hne⟩ := hab
  have hda : a.2 = a.1 := mem_enum_range_diag (List.mem_mergeSort.mp ha)
  have hdb : b.2 = b.1 := mem_enum_range_diag (List.mem_mergeSort.mp hb)
  rw [enumLE_scoreLE_iff] at hab
  obtain ⟨h1, h2⟩ := hab
  rcases lt_or_eq_of_le h1 with hlt | heq
  · exact Or.inl hlt
  · refine Or.inr ⟨heq.symm, ?_⟩
    have hle : a.2 ≤ b.2 := by
      rw [hda, hdb]
      exact h2 heq.ge
    rcases lt_or_eq_of_le hle with h | h
    · exact h
    · exfalso
      apply hne
      have : a.1 = b.1 := by rw [← hda, ← hdb, h]
      exact Prod.ext this (hda ▸ hdb ▸ this)

theorem pySlice_eq_take (n : ℤ) (l : List α) : ∃ m, pySlice n l = l.take m := by
  unfold pySlice
  split
  · exact ⟨n.toNat, rfl⟩
  · exact ⟨((l.length : ℤ) + n).toNat, rfl⟩

theorem mem_top_n_indices {scores : List ℚ} {n : ℤ} {i : ℕ}
    (h : i ∈ top_n_indices scores n) : i < scores.length := by
  obtain ⟨m, hm⟩ := pySlice_eq_take n
    ((List.range scores.length).mergeSort (scoreLE scores))
  rw [top_n_indices, hm] at h
  exact List.mem_range.mp
    (List.mem_mergeSort.mp (List.mem_of_mem_take h))

theorem pairwise_get_precedes {l : List (ℕ × ℚ)}
    (h : l.Pairwise (fun a b => b.2 < a.2 ∨ (a.2 = b.2 ∧ a.1 < b.1)))
    (i j : Fin l.length) (hij : (l.get j).2 < (l.get i).2) : i < j := by
  rcases lt_trichotomy i j with h' | h' | h'
  · exact h'
  · rw [h'] at hij
    exact absurd hij (lt_irrefl _)
  · rcases List.pairwise_iff_get.mp h j i h' with hlt | ⟨heq, _⟩
    · exact absurd (hij.trans hlt) (lt_irrefl _)
    · rw [heq] at hij
      exact absurd hij (lt_irrefl _)

theorem retrieve_pairwise (lg : ℚ → ℚ) (idx : RankingIndex) (q : List Char)
    (k : ℤ) :
    (RAGChatbot.retrieve_relevant_trials lg idx q k).Pairwise
      (fun a b => b.2 < a.2 ∨ (a.2 = b.2 ∧ a.1 < b.1)) := by
  show ((top_n_indices (get_scores lg idx (RAGChatbot.tokenize q)) k).map
    (fun i => (i, (get_scores lg idx (RAGChatbot.tokenize q)).getD i 0))).Pairwise _
  rw [List.pairwise_map]
  obtain ⟨m, hm⟩ := pySlice_eq_take k
    ((List.range (get_scores lg idx (RAGChatbot.tokenize q)).length).mergeSort
      (scoreLE (get_scores lg idx (RAGChatbot.tokenize q))))
  rw [top_n_indices, hm]
  exact (List.Pairwise.sublist (List.take_sublist _ _)
    (mergeSort_range_pairwise _)).imp (fun h => h)

theorem getD_all_zero {l : List ℚ} (h : ∀ x ∈ l, x = 0) (i : ℕ) :
    l.getD i 0 = 0 := by
  induction l generalizing i with
  | nil => simp
  | cons a l ih =>
    cases i with
    | zero => exact h a (List.mem_cons_self _ _)
    | succ n =>
      rw [List.getD_cons_succ]
      exact ih (fun x hx => h x (List.mem_cons_of_mem _ hx)) n

theorem pairwise_of_rel_total {R : ℕ → ℕ → Prop} (h : ∀ a b, R a b) :
    ∀ l : List ℕ, l.Pairwise R
  | [] => List.Pairwise.nil
  | a :: l => List.Pairwise.cons (fun b _ => h a b) (pairwise_of_rel_total h l)

theorem mergeSort_range_all_zero {scores : List ℚ} (h : ∀ x ∈ scores, x = 0) :
    (List.range scores.length).mergeSort (scoreLE scores) =
      List.range scores.length :=
  List.mergeSort_of_sorted (pairwise_of_rel_total
    (fun i j => scoreLE_iff.mpr (by rw [getD_all_zero h, getD_all_zero h])) _)

theorem length_get_scores (lg : ℚ → ℚ) (idx : RankingIndex)
    (q : List (List Char)) : (get_scores lg idx q).length = idx.corpus.length :=
  List.length_map _ _

theorem retrieve_zero_scores (lg : ℚ → ℚ) (idx : RankingIndex)
    (q : List Char) (k : ℤ)
    (h : ∀ x ∈ get_scores lg idx (RAGChatbot.tokenize q), x = 0) :
    RAGChatbot.retrieve_relevant_trials lg idx q k =
      (pySlice k (List.range idx.corpus.length)).map (fun i => (i, (0 : ℚ))) := by
  show (top_n_indices (get_scores lg idx (RAGChatbot.tokenize q)) k).map _ = _
  rw [top_n_indices, mergeSort_range_all_zero h, length_get_scores]
  exact List.map_congr_left (fun i _ => by rw [getD_all_zero h])

theorem get_scores_empty_query (lg : ℚ → ℚ) (idx : RankingIndex) :
    ∀ x ∈ get_scores lg idx [], x = 0 := by
  intro x hx
  rcases List.mem_map.mp hx with ⟨d, _, rfl⟩
  rfl

theorem termContribution_zero_lg (idx : RankingIndex)
    (d : List (List Char)) (t : List Char) :
    termContribution (fun _ => 0) idx d t = 0 := by
  unfold termContribution idf
  rw [zero_mul, zero_div]

theorem get_scores_zero_lg (idx : RankingIndex) (q : List (List Char)) :
    ∀ x ∈ get_scores (fun _ => 0) idx q, x = 0 := by
  intro x hx
  rcases List.mem_map.mp hx with ⟨d, _, rfl⟩
  show (q.map (termContribution (fun _ => 0) idx d)).sum = 0
  rw [List.map_congr_left (fun t _ => termContribution_zero_lg idx d t)]
  simp

/-- C1: for every index, query text and K > 0, the result of the query
operation is sorted by score descending with ties broken by ascending
corpus position, and any higher-scored entry precedes any lower-scored
one. -/
theorem claim1_ranking_order (lg : ℚ → ℚ) (idx : RankingIndex)
    (q : List Char) (k : ℤ) (hk : 0 < k) :
    (RAGChatbot.retrieve_relevant_trials lg idx q k).Pairwise
      (fun a b => b.2 < a.2 ∨ (a.2 = b.2 ∧ a.1 < b.1)) ∧
    ∀ i j : Fin (RAGChatbot.retrieve_relevant_trials lg idx q k).length,
      ((RAGChatbot.retrieve_relevant_trials lg idx q k).get j).2 <
        ((RAGChatbot.retrieve_relevant_trials lg idx q k).get i).2 → i < j :=
  ⟨retrieve_pairwise lg idx q k,
    fun i j hij => pairwise_get_precedes (retrieve_pairwise lg idx q k) i j hij⟩

/-- Witness for C1 at a concrete one-document index, query "a" and K = 1. -/
theorem claim1_ranking_order_witness :
    (0 : ℤ) < 1 ∧
    (RAGChatbot.retrieve_relevant_trials (fun _ => 0)
      (RankingIndex.mk [[['a']]] (3/2) (3/4) 1) ['a'] 1).Pairwise
      (fun a b => b.2 < a.2 ∨ (a.2 = b.2 ∧ a.1 < b.1)) :=
  ⟨by decide, (claim1_ranking_order (fun _ => 0)
    (RankingIndex.mk [[['a']]] (3/2) (3/4) 1) ['a'] 1 (by decide)).1⟩

/-- C2, counterexample: the query operation does not fail for K ≤ 0 — on a
two-document index it returns the empty list for K = 0 and a truncated
one-element list for K = -1 (Python slice semantics); no
`InvalidArgumentError` exists anywhere in the source. -/
theorem claim2_counterexample :
    RAGChatbot.retrieve_relevant_trials (fun _ => 0)
      (RankingIndex.mk [[['a']], [['b']]] (3/2) (3/4) 1) ['a'] 0 = [] ∧
    RAGChatbot.retrieve_relevant_trials (fun _ => 0)
      (RankingIndex.mk [[['a']], [['b']]] (3/2) (3/4) 1) ['a'] (-1) =
      [(0, 0)] := by
  constructor <;>
    rw [retrieve_zero_scores _ _ _ _ (get_scores_zero_lg _ _)] <;> decide

/-- C2, amended: the query operation performs no validation of K: K = 0
yields the empty result and a negative K yields the full ranking with its
last |K| entries dropped (Python negative-slice semantics); no error is
ever raised. -/
theorem claim2_no_k_validation (lg : ℚ → ℚ) (idx : RankingIndex)
    (q : List Char) :
    RAGChatbot.retrieve_relevant_trials lg idx q 0 = [] ∧
    ∀ k : ℤ, k < 0 →
      RAGChatbot.retrieve_relevant_trials lg idx q k =
        (RAGChatbot.retrieve_relevant_trials lg idx q
          (idx.corpus.length : ℤ)).take
          (((idx.corpus.length : ℤ) + k).toNat) := by
  constructor
  · show (top_n_indices (get_scores lg idx (RAGChatbot.tokenize q)) 0).map
      (fun i => (i, (get_scores lg idx (RAGChatbot.tokenize q)).getD i 0)) = []
    have hz : pySlice 0 ((List.range
        (get_scores lg idx (RAGChatbot.tokenize q)).length).mergeSort
        (scoreLE (get_scores lg idx (RAGChatbot.tokenize q)))) =
        ([] : List ℕ) := by
      unfold pySlice
      rw [if_pos le_rfl]
      simp
    rw [top_n_indices, hz]
    rfl
  · intro k hk
    set scores := get_scores lg idx (RAGChatbot.tokenize q) with hs
    set P := (List.range scores.length).mergeSort (scoreLE scores) with hP
    have hPlen : P.length = idx.corpus.length := by
      rw [hP, List.length_mergeSort, List.length_range, hs, length_get_scores]
    have hfull : RAGChatbot.retrieve_relevant_trials lg idx q
        (idx.corpus.length : ℤ) =
        P.map (fun i => (i, scores.getD i 0)) := by
      show (top_n_indices scores (idx.corpus.length : ℤ)).map
        (fun i => (i, scores.getD i 0)) = _
      rw [top_n_indices, ← hP]
      unfold pySlice
      rw [if_pos (Int.natCast_nonneg _), Int.toNat_natCast, ← hPlen,
        List.take_length]
    have hneg : RAGChatbot.retrieve_relevant_trials lg idx q k =
        (P.take (((idx.corpus.length : ℤ) + k).toNat)).map
          (fun i => (i, scores.getD i 0)) := by
      show (top_n_indices scores k).map
        (fun i => (i, scores.getD i 0)) = _
      rw [top_n_indices, ← hP]
      unfold pySlice
      rw [if_neg (by omega), hPlen]
    rw [hneg, hfull, List.map_take]

/-- Witness for the amended C2 at a concrete two-document index with
K = -1. -/
theorem claim2_no_k_validation_witness :
    (-1 : ℤ) < 0 ∧
    RAGChatbot.retrieve_relevant_trials (fun _ => 0)
      (RankingIndex.mk [[['a']], [['b']]] (3/2) (3/4) 1) ['a'] (-1) =
      (RAGChatbot.retrieve_relevant_trials (fun _ => 0)
        (RankingIndex.mk [[['a']], [['b']]] (3/2) (3/4) 1) ['a']
        (((RankingIndex.mk [[['a']], [['b']]] (3/2) (3/4) 1).corpus.length : ℤ))).take
        ((((RankingIndex.mk [[['a']], [['b']]] (3/2) (3/4) 1).corpus.length : ℤ) +
          (-1)).toNat) :=
  ⟨by decide, (claim2_no_k_validation (fun _ => 0)
    (RankingIndex.mk [[['a']], [['b']]] (3/2) (3/4) 1) ['a']).2 (-1) (by decide)⟩

/-- C3, counterexample: on a built one-document index, the empty query
(whose tokenization is empty) with K = 1 returns the one zero-scored
document, not the empty QueryResult. -/
theorem claim3_counterexample :
    buildRankingIndex [[['a']]] =
      .ok (RankingIndex.mk [[['a']]] (3/2) (3/4) 1) ∧
    RAGChatbot.tokenize [] = [] ∧
    RAGChatbot.retrieve_relevant_trials (fun _ => 0)
      (RankingIndex.mk [[['a']]] (3/2) (3/4) 1) [] 1 = [(0, 0)] ∧
    [((0 : ℕ), (0 : ℚ))] ≠ ([] : List (ℕ × ℚ)) := by
  refine ⟨?_, rfl, ?_, by decide⟩
  · unfold buildRankingIndex
    norm_num
  · rw [retrieve_zero_scores _ _ _ _ (get_scores_zero_lg _ _)]
    decide

/-- C3, amended: on any index, a query whose tokenization is empty is not
an error, but neither is it the empty result: every document scores 0, the
stable sort leaves the positions in ascending order, and the first
min(K, N) positions are returned, each paired with score 0. -/
theorem claim3_empty_query_amended (lg : ℚ → ℚ) (idx : RankingIndex)
    (q : List Char) (k : ℤ) (hk : 0 < k)
    (hq : RAGChatbot.tokenize q = []) :
    RAGChatbot.retrieve_relevant_trials lg idx q k =
      (List.range (min k.toNat idx.corpus.length)).map
        (fun i => (i, (0 : ℚ))) := by
  have h0 : ∀ x ∈ get_scores lg idx (RAGChatbot.tokenize q), x = 0 := by
    rw [hq]
    exact get_scores_empty_query lg idx
  rw [retrieve_zero_scores lg idx q k h0]
  unfold pySlice
  rw [if_pos hk.le, List.take_range]

/-- Witness for the amended C3 at a concrete one-document index with the
empty query and K = 1. -/
theorem claim3_empty_query_amended_witness :
    (0 : ℤ) < 1 ∧ RAGChatbot.tokenize [] = [] ∧
    RAGChatbot.retrieve_relevant_trials (fun _ => 0)
      (RankingIndex.mk [[['a']]] (3/2) (3/4) 1) [] 1 =
      (List.range (min (1 : ℤ).toNat
        (RankingIndex.mk [[['a']]] (3/2) (3/4) 1).corpus.length)).map
        (fun i => (i, (0 : ℚ))) :=
  ⟨by decide, rfl, claim3_empty_query_amended (fun _ => 0)
    (RankingIndex.mk [[['a']]] (3/2) (3/4) 1) [] 1 (by decide) rfl⟩

theorem scoreDoc_empty_doc (lg : ℚ → ℚ) (idx : RankingIndex)
    (q : List (List Char)) : scoreDoc lg idx [] q = 0 := by
  have h : ∀ t, termContribution lg idx [] t = 0 := by
    intro t
    unfold termContribution
    simp
  show (q.map (termContribution lg idx [])).sum = 0
  rw [List.map_congr_left (fun t _ => h t)]
  simp

theorem get_scores_all_empty (lg : ℚ → ℚ) (idx : RankingIndex)
    (q : List (List Char)) (h : ∀ d ∈ idx.corpus, d = []) :
    get_scores lg idx q = List.replicate idx.corpus.length 0 := by
  have hcong : ∀ d ∈ idx.corpus,
      scoreDoc lg idx d q = Function.const (List (List Char)) (0 : ℚ) d :=
    fun d hd => by rw [h d hd]; exact scoreDoc_empty_doc lg idx q
  show idx.corpus.map (fun d => scoreDoc lg idx d q) = _
  rw [List.map_congr_left hcong, List.map_const]

/-- C4: building the index on zero documents fails with the (spec-modelled)
`EmptyCorpusError`, while a non-empty corpus whose documents are all empty
builds successfully and gives every document the score 0 for every
query. -/
theorem claim4_empty_corpus :
    buildRankingIndex [] = .error .EmptyCorpusError ∧
    ∀ corpus : List (List (List Char)), corpus ≠ [] →
      (∀ d ∈ corpus, d = []) →
      (buildRankingIndex corpus).isOk = true ∧
      ∀ idx, buildRankingIndex corpus = .ok idx →
        ∀ (lg : ℚ → ℚ) (q : List (List Char)),
          get_scores lg idx q = List.replicate corpus.length 0 := by
  refine ⟨rfl, ?_⟩
  intro corpus hne hall
  have hem : corpus.isEmpty = false := by
    cases corpus with
    | nil => exact absurd rfl hne
    | cons a l => rfl
  constructor
  · unfold buildRankingIndex
    rw [if_neg (by simp [hem])]
    rfl
  · intro idx hb lg q
    unfold buildRankingIndex at hb
    rw [if_neg (by simp [hem])] at hb
    injection hb with hb
    rw [← hb]
    exact get_scores_all_empty lg _ q hall

/-- Witness for C4 at the concrete corpus of two empty documents. -/
theorem claim4_empty_corpus_witness :
    ([[], []] : List (List (List Char))) ≠ [] ∧
    (buildRankingIndex ([[], []] : List (List (List Char)))).isOk = true ∧
    get_scores (fun _ => 0)
      (RankingIndex.mk [[], []] (3/2) (3/4) 0) [['a']] =
      List.replicate 2 0 := by
  have h2 : ∀ d ∈ ([[], []] : List (List (List Char))), d = [] := by decide
  have hb : buildRankingIndex ([[], []] : List (List (List Char))) =
      .ok (RankingIndex.mk [[], []] (3/2) (3/4) 0) := by
    unfold buildRankingIndex
    norm_num
  exact ⟨by decide, (claim4_empty_corpus.2 [[], []] (by decide) h2).1,
    (claim4_empty_corpus.2 [[], []] (by decide) h2).2 _ hb (fun _ => 0) [['a']]⟩

/-- C7: for every built index the score of a document is exactly the BM25
sum of the spec — per query-term occurrence,
idf(t) * (tf * (k1+1)) / (tf + k1 * (1 - b + b * dl/avgdl)) with
idf(t) = ln((N - df + 0.5)/(df + 0.5) + 1), k1 = 1.5, b = 0.75 — and
negative contributions are passed through unchanged: a negative total
score is possible and not clamped to zero. -/
theorem claim7_score_formula :
    (∀ (lg : ℚ → ℚ) (corpus : List (List (List Char))) (idx : RankingIndex),
      buildRankingIndex corpus = .ok idx →
      ∀ (q : List (List Char)) (d : List (List Char)),
        scoreDoc lg idx d q = (q.map (fun t =>
          lg (((corpus.length : ℚ) - (termDf corpus t : ℚ) + 1/2) /
              ((termDf corpus t : ℚ) + 1/2) + 1) *
            ((d.count t : ℚ) * (3/2 + 1)) /
            ((d.count t : ℚ) + (3/2) * (1 - 3/4 + (3/4) * (d.length : ℚ) /
              ((corpus.map (fun x => (x.length : ℚ))).sum /
                (corpus.length : ℚ)))))).sum) ∧
    ∃ (lg : ℚ → ℚ) (corpus : List (List (List Char))) (idx : RankingIndex)
      (q d : List (List Char)),
      buildRankingIndex corpus = .ok idx ∧ scoreDoc lg idx d q < 0 := by
  constructor
  · intro lg corpus idx hb q d
    unfold buildRankingIndex at hb
    by_cases he : corpus.isEmpty = true
    · rw [if_pos he] at hb
      cases hb
    · rw [if_neg he] at hb
      injection hb with hb
      rw [← hb]
      rfl
  · refine ⟨fun _ => -1, [[['a']]], RankingIndex.mk [[['a']]] (3/2) (3/4) 1,
      [['a']], [['a']], ?_, ?_⟩
    · unfold buildRankingIndex
      norm_num
    · show (([['a']] : List (List Char)).map (termContribution (fun _ => -1)
        (RankingIndex.mk [[['a']]] (3/2) (3/4) 1) [['a']])).sum < 0
      rw [List.map_cons, List.map_nil, List.sum_cons, List.sum_nil, add_zero]
      unfold termContribution idf
      rw [show termDf [[['a']]] ['a'] = 1 from by decide,
        show ([['a']] : List (List Char)).count ['a'] = 1 from by decide,
        show ([['a']] : List (List Char)).length = 1 from rfl]
      norm_num

/-- Witness for the universally quantified part of C7 at a concrete
one-document index. -/
theorem claim7_score_formula_witness :
    buildRankingIndex [[['a']]] =
      .ok (RankingIndex.mk [[['a']]] (3/2) (3/4) 1) ∧
    scoreDoc (fun _ => 1) (RankingIndex.mk [[['a']]] (3/2) (3/4) 1) [] [] = 0 := by
  have hb : buildRankingIndex [[['a']]] =
      .ok (RankingIndex.mk [[['a']]] (3/2) (3/4) 1) := by
    unfold buildRankingIndex
    norm_num
  exact ⟨hb, (claim7_score_formula.1 (fun _ => 1) [[['a']]] _ hb [] []).trans rfl⟩

theorem tokenized_corpus_eq :
    ∀ trials : List TrialRecord,
      TrialIndexer.tokenized_corpus trials =
        trials.map (fun r =>
          TrialIndexer.tokenize (TrialIndexer.create_trial_text r))
  | [] => rfl
  | r :: ts => by
    show TrialIndexer.tokenize (TrialIndexer.create_trial_text r) ::
      TrialIndexer.tokenized_corpus ts = _
    rw [List.map_cons]
    exact congrArg _ (tokenized_corpus_eq ts)

/-- C9: corpus building maps every record, in input order, to exactly one
tokenized document (no record dropped, reordered or deduplicated); a
record with all fields absent yields the empty document; and every
position in any query result is a valid corpus position. -/
theorem claim9_alignment :
    (∀ trials : List TrialRecord,
      (TrialIndexer.tokenized_corpus trials).length = trials.length ∧
      TrialIndexer.tokenized_corpus trials =
        trials.map (fun r =>
          TrialIndexer.tokenize (TrialIndexer.create_trial_text r))) ∧
    TrialIndexer.tokenize (TrialIndexer.create_trial_text blankRecord) = [] ∧
    ∀ (trials : List TrialRecord) (idx : RankingIndex) (lg : ℚ → ℚ)
      (q : List Char) (k : ℤ) (p : ℕ × ℚ),
      TrialIndexer.build_index trials = .ok idx →
      p ∈ RAGChatbot.retrieve_relevant_trials lg idx q k →
      p.1 < trials.length := by
  refine ⟨?_, by decide, ?_⟩
  · intro trials
    constructor
    · unfold TrialIndexer.tokenized_corpus TrialIndexer.build_corpus
      rw [List.length_map, List.length_map]
    · exact tokenized_corpus_eq trials
  · intro trials idx lg q k p hb hp
    have hcorpus : idx.corpus = TrialIndexer.tokenized_corpus trials := by
      unfold TrialIndexer.build_index buildRankingIndex at hb
      by_cases he : (TrialIndexer.tokenized_corpus trials).isEmpty = true
      · rw [if_pos he] at hb
        cases hb
      · rw [if_neg he] at hb
        injection hb with hb
        rw [← hb]
    have hp' : p ∈ (top_n_indices
        (get_scores lg idx (RAGChatbot.tokenize q)) k).map
        (fun i => (i, (get_scores lg idx (RAGChatbot.tokenize q)).getD i 0)) :=
      hp
    rcases List.mem_map.mp hp' with ⟨i, hi, rfl⟩
    have hlt : i < (get_scores lg idx (RAGChatbot.tokenize q)).length :=
      mem_top_n_indices hi
    rw [length_get_scores, hcorpus] at hlt
    show i < trials.length
    calc i < (TrialIndexer.tokenized_corpus trials).length := hlt
    _ = trials.length := by
      unfold TrialIndexer.tokenized_corpus TrialIndexer.build_corpus
      rw [List.length_map, List.length_map]

/-- Witness for C9's position-bound component at a concrete one-record
corpus. -/
theorem claim9_alignment_witness :
    TrialIndexer.tokenize (TrialIndexer.create_trial_text blankRecord) = [] ∧
    ((0 : ℕ), (0 : ℚ)).1 < [blankRecord].length := by
  have hb : TrialIndexer.build_index [blankRecord] =
      .ok (RankingIndex.mk [[]] (3/2) (3/4) 0) := by
    have h1 : TrialIndexer.tokenized_corpus [blankRecord] = [[]] := by decide
    unfold TrialIndexer.build_index
    rw [h1]
    unfold buildRankingIndex
    norm_num
  have hmem : ((0 : ℕ), (0 : ℚ)) ∈ RAGChatbot.retrieve_relevant_trials
      (fun _ => 0) (RankingIndex.mk [[]] (3/2) (3/4) 0) [] 1 := by
    rw [retrieve_zero_scores _ _ _ _ (get_scores_zero_lg _ _)]
    decide
  exact ⟨claim9_alignment.2.1,
    claim9_alignment.2.2 [blankRecord] _ (fun _ => 0) [] 1 ((0 : ℕ), (0 : ℚ))
      hb hmem⟩

/-- C10: the number of retrieved trials for a chat request is fixed at the
`retrieve_relevant_trials` default of 10 — `RAGChatbot.chat` passes no
result count and the API handler never forwards the validated `n_results`
field — so the response is independent of `n_results` and carries exactly
min(10, corpus size) sources. -/
theorem claim10_n_results_ignored (lg : ℚ → ℚ) (idx : RankingIndex)
    (q : List Char) (n : ℤ) :
    api_chat lg idx ⟨q, n⟩ =
      RAGChatbot.retrieve_relevant_trials lg idx q 10 ∧
    (api_chat lg idx ⟨q, n⟩).length = min 10 idx.corpus.length := by
  refine ⟨rfl, ?_⟩
  show ((top_n_indices (get_scores lg idx (RAGChatbot.tokenize q)) 10).map
    (fun i => (i, (get_scores lg idx (RAGChatbot.tokenize q)).getD i 0))).length =
    min 10 idx.corpus.length
  rw [List.length_map, top_n_indices]
  unfold pySlice
  rw [if_pos (by omega)]
  rw [List.length_take, List.length_mergeSort, List.length_range,
    length_get_scores]
  rfl

/-- Witness for the amended C5 at the concrete input "Ab 12" and its first
output token. -/
theorem claim5_tokenize_amended_witness :
    TrialIndexer.tokenize ['A', 'b', ' ', '1', '2'] =
      tokenizeSpecAmended ['A', 'b', ' ', '1', '2'] ∧
    (['a', 'b'] ≠ [] ∧ (∀ c ∈ ['a', 'b'], isAlnumChar c = true) ∧
      ∀ c ∈ ['a', 'b'], lowerChar c = c) :=
  ⟨(claim5_tokenize_amended ['A', 'b', ' ', '1', '2']).1,
    (claim5_tokenize_amended ['A', 'b', ' ', '1', '2']).2 ['a', 'b'] (by decide)⟩
